import Mathlib

/-!
# Verification of the mise Python core plugin (`src/plugins/core/python.rs`)

Shallow embedding of the plugin's pure logic and of its effectful operations
(as functions from explicit external-world oracles to an event trace plus a
result), together with theorems settling the frozen claims about it.

Strings are embedded as `List Char` so that every operation is structurally
recursive and kernel-computable. External collaborators (HTTP, git, the
subprocess runner, the filesystem) are oracles supplied in an `Ext` record;
each effectful source function becomes a Lean function producing the list of
observable events it performs plus its `Except` result, in source order.
-/

namespace MisePython

/-- Strings of the embedding: Rust `&str`/`String`/`PathBuf` as `List Char`. -/
abbrev Str := List Char

/-- Coerce a Lean string literal into the embedding's string type. -/
def str (s : String) : Str := s.data

/-- Embedding of Rust `str::split('\n')`: splits at every newline, keeping
empty pieces (`"a\n"` gives `["a", ""]`, `""` gives `[""]`). -/
def splitNl : Str → List Str
  | [] => [[]]
  | c :: cs =>
    if c = '\n' then [] :: splitNl cs
    else
      match splitNl cs with
      | [] => [[c]]
      | p :: ps => (c :: p) :: ps

/-- Drop one trailing `'\r'`, as Rust `str::lines` does on each piece. -/
def stripCr (s : Str) : Str :=
  match s.getLast? with
  | some '\r' => s.dropLast
  | _ => s

/-- Drop the final piece when it is empty (Rust `str::lines` treats the last
line terminator as optional). -/
def dropLastEmpty (l : List Str) : List Str :=
  match l.getLast? with
  | some [] => l.dropLast
  | _ => l

/-- Embedding of Rust `str::lines()`: split at `'\n'`, strip a trailing
`'\r'` from each line, and do not produce a final empty line. -/
def linesOf (s : Str) : List Str :=
  (dropLastEmpty (splitNl s)).map stripCr

/-- Embedding of `regex!(r"^\d+").is_match(v)`: the regex matches exactly
when the string begins with a decimal digit. -/
def startsDigit (s : Str) : Bool :=
  match s with
  | [] => false
  | c :: _ => c.isDigit

/-- Does `s` start with `p`? (helper for substring search). -/
def startsWithL (s p : Str) : Bool :=
  match p, s with
  | [], _ => true
  | _ :: _, [] => false
  | a :: ps, b :: ss => a = b && startsWithL ss ps

/-- Embedding of Rust `str::contains(sub)`: substring occurrence. -/
def hasSub (s sub : Str) : Bool :=
  if startsWithL s sub then true
  else
    match s with
    | [] => false
    | _ :: cs => hasSub cs sub

/-- Strip the literal `p` from the front of `s`, returning the rest. -/
def dropPre (p s : Str) : Option Str :=
  match p, s with
  | [], s => some s
  | _ :: _, [] => none
  | a :: ps, b :: ss => if a = b then dropPre ps ss else none

/-- Take the maximal leading run of decimal digits and return it with the
rest of the string. -/
def takeDigits : Str → Str × Str
  | [] => ([], [])
  | c :: cs =>
    if c.isDigit then
      let (d, r) := takeDigits cs
      (c :: d, r)
    else ([], c :: cs)

/-- Embedding of matching a line against
`regex!(r"^cpython-(\d+\.\d+\.\d+)\+(\d+).*")` and extracting
`(caps[1], caps[2], caps[0])` — i.e. `(version, release-tag, matched text)`.
Each `\d+` here is followed by a non-digit literal (`\.` or `\+`) or by `.*`,
so regex backtracking coincides with maximal-munch digit runs and the match
is deterministic. `caps[0]` extends through the greedy `.*`, which matches
every remaining character except `'\n'`. -/
def matchCpython (line : Str) : Option (Str × Str × Str) :=
  match dropPre (str "cpython-") line with
  | none => none
  | some r0 =>
    if (takeDigits r0).1 = [] then none else
    match (takeDigits r0).2 with
    | '.' :: r2 =>
      if (takeDigits r2).1 = [] then none else
      match (takeDigits r2).2 with
      | '.' :: r4 =>
        if (takeDigits r4).1 = [] then none else
        match (takeDigits r4).2 with
        | '+' :: r6 =>
          if (takeDigits r6).1 = [] then none else
          some ((takeDigits r0).1 ++ '.' :: (takeDigits r2).1 ++
                  '.' :: (takeDigits r4).1,
                (takeDigits r6).1,
                str "cpython-" ++
                  ((takeDigits r0).1 ++ '.' :: (takeDigits r2).1 ++
                    '.' :: (takeDigits r4).1) ++
                  '+' :: (takeDigits r6).1 ++
                  (takeDigits r6).2.takeWhile (fun c => c ≠ '\n'))
        | _ => none
      | _ => none
    | _ => none

/-- Embedding of itertools `unique()`: keep the first occurrence of each
element, preserving first-seen order (`seen` is the set of already-emitted
elements, as itertools' internal hash set). -/
def uniqueAux (seen : List Str) : List Str → List Str
  | [] => []
  | x :: xs =>
    if x ∈ seen then uniqueAux seen xs
    else x :: uniqueAux (x :: seen) xs

/-- `Iterator::unique()` from itertools, as used on the version projection. -/
def uniqueKeepFirst (l : List Str) : List Str := uniqueAux [] l

/-- Stable insertion of `a` into a list sorted by the boolean key: `a` is
placed before `b` exactly when `key a ≤ key b` (with `false < true`), so
equal-key elements keep their original relative order. -/
def insertByKey (key : α → Bool) (a : α) : List α → List α
  | [] => [a]
  | b :: bs =>
    if !key a || key b then a :: b :: bs
    else b :: insertByKey key a bs

/-- Embedding of itertools `sorted_by_cached_key` at a boolean key: a stable
sort, ascending in the key (`false` before `true`). -/
def sorted_by_cached_key (key : α → Bool) : List α → List α
  | [] => []
  | x :: xs => insertByKey key x (sorted_by_cached_key key xs)

/-- A precompiled catalog entry `(version, release-tag, artifact-filename)`. -/
abbrev Entry := Str × Str × Str

/-- Embedding of the cache-population computation inside
`fetch_precompiled_remote_versions`: split the feed into lines, keep lines
containing the `"{arch}-{os}"` platform tag, and parse each with the
`cpython-` regex, keeping the captures of matching lines. -/
def fetch_precompiled_entries (raw : Str) (tag : Str) : List Entry :=
  ((linesOf raw).filter (fun v => hasSub v tag)).filterMap matchCpython

/-- Embedding of `fn os()` (the panicking branch is excluded by making the
type cover exactly the supported systems). -/
inductive TargetOs where
  | linuxMusl
  | linuxGnu
  | macos
deriving DecidableEq, Repr

/-- Embedding of `fn arch()`. -/
inductive TargetArch where
  | x86_64
  | aarch64
deriving DecidableEq, Repr

/-- `fn os() -> &'static str`. -/
def os : TargetOs → Str
  | .linuxMusl => str "unknown-linux-musl"
  | .linuxGnu => str "unknown-linux-gnu"
  | .macos => str "apple-darwin"

/-- `fn arch() -> &'static str`. -/
def arch : TargetArch → Str
  | .x86_64 => str "x86_64_v3"
  | .aarch64 => str "aarch64"

/-- `format!("{}-{}", arch(), os())`: the platform tag used to filter the
precompiled feed. -/
def platformTag (a : TargetArch) (o : TargetOs) : Str :=
  arch a ++ '-' :: os o

/-- The settings flags this plugin reads (`Settings::get()`). -/
structure Settings where
  all_compile : Bool
  python_compile : Bool
  experimental : Bool
  python_venv_auto_create : Bool
  verbose : Bool
deriving DecidableEq, Repr

/-- `fn should_install_precompiled(&self, settings) -> bool`. -/
def should_install_precompiled (s : Settings) : Bool :=
  !s.all_compile && !s.python_compile && s.experimental

/-- The two installation strategies of the spec's `StrategyChoice`. -/
inductive StrategyChoice where
  | Precompiled
  | SourceBuild
deriving DecidableEq, Repr

/-- The strategy branch taken by `install_version_impl`
(and by `fetch_remote_versions`): precompiled exactly when
`should_install_precompiled` holds. -/
def selectStrategy (s : Settings) : StrategyChoice :=
  if should_install_precompiled s then .Precompiled else .SourceBuild

/-- Errors produced by the plugin itself, plus a tag for errors propagated
from external collaborators (HTTP, git, subprocesses, filesystem). -/
inductive Err where
  /-- `miette!("Ref versions not supported for python")`. -/
  | refNotSupported
  /-- `bail!("no precompiled version found for {}", ctx.tv)`; the
  interpolated tool version displays the requested version string,
  carried here as the payload. -/
  | noPrecompiledFound (version : Str)
  /-- An error bubbled up from an external collaborator. -/
  | external (code : Nat)
deriving DecidableEq, Repr

/-- `ToolVersionRequest`: only the `Ref` shape is treated specially by this
plugin (`matches!(&ctx.tv.request, ToolVersionRequest::Ref(..))`). -/
inductive TVRequest where
  | version (v : Str)
  | prefixReq (v : Str)
  | ref (r : Str)
  | sub (s v : Str)
deriving DecidableEq, Repr

/-- Observable events performed by the plugin, in source order. Progress
messages (`pr.set_message`) and warnings (`warn!`) are events too, so claims
about emitted guidance can be stated; `debug!`/`info!` logging is omitted. -/
inductive Event where
  /-- `file::create_dir_all` of the python-build parent directory. -/
  | createDirAll
  /-- `git.clone(&env::MISE_PYENV_REPO)`. -/
  | cloneRepo
  /-- `git.update(None)` inside `run_fetch_task_with_timeout`. -/
  | updateRepo
  /-- `warn!("failed to fetch remote versions: {}", e)`. -/
  | warnShortcutFailed
  /-- The three `warn!` lines at the top of `install_precompiled`. -/
  | warnPrecompiledExperimental
  /-- `pr.set_message(format!("downloading {}", &url))`. -/
  | msgDownloading (url : Str)
  /-- `HTTP.download_file(&url, &tarball_path)`. -/
  | download (url : Str)
  /-- `pr.set_message(format!("installing {}", tarball_path.display()))`. -/
  | msgInstalling
  /-- `file::untar(&tarball_path, &download)`. -/
  | untar
  /-- `file::remove_all(&install)`. -/
  | removeInstallPath
  /-- `file::rename(download.join("python"), &install)`. -/
  | renameIntoInstall
  /-- `file::make_symlink(bin/python3, bin/python)`. -/
  | makeSymlink
  /-- `test_python`: `pr.set_message("python --version")` plus running the
  installed interpreter with `--version`. -/
  | smokeTest
  /-- `pr.set_message("Running python-build")`. -/
  | msgRunningBuild
  /-- `pr.set_message(format!("with patch file from: {patch_url}"))`. -/
  | msgPatchUrl (url : Str)
  /-- `pr.set_message(format!("with patch file: {}", patch_file.display()))`. -/
  | msgPatchFile (p : Str)
  /-- `warn!("patch file not found: {}", patch_file.display())`. -/
  | warnPatchNotFound (p : Str)
  /-- `cmd.execute()` of python-build: requested version, piped patch
  standard input (if any), verbose flag. -/
  | runBuild (version : Str) (patch : Option Str) (verbose : Bool)
  /-- The experimental-mode warning inside `get_virtualenv`. -/
  | warnExperimentalVenv
  /-- `python -m venv <path>` (`cmd.execute()` in `get_virtualenv`). -/
  | venvCreate (p : Str)
  /-- The `warn!("no venv found: ...")` guidance in `get_virtualenv`. -/
  | warnNoVenvGuidance (p : Str)
  /-- `warn!("failed to get virtualenv: {e}")`. -/
  | warnVirtualenvFailed
  /-- `install_default_packages`: progress message plus the pip run. -/
  | installDefaultPackages
deriving DecidableEq, Repr

/-- Does the event mutate the filesystem (directly or through a subprocess
that writes to disk)? Messages, warnings and the read-only smoke test do
not. -/
def isFsMutation : Event → Bool
  | .createDirAll | .cloneRepo | .updateRepo | .download _ | .untar
  | .removeInstallPath | .renameIntoInstall | .makeSymlink
  | .runBuild _ _ _ | .venvCreate _ | .installDefaultPackages => true
  | _ => false

/-- Outcomes of the external collaborators, fixed before a run: each field
is what the corresponding call would observe or return. -/
structure Ext where
  /-- `self.python_build_path().exists()`. -/
  pythonBuildExists : Bool
  /-- Result of `git.clone(&env::MISE_PYENV_REPO)`. -/
  cloneResult : Except Err Unit
  /-- Result of `git.update(None)` (timeout included). -/
  updateResult : Except Err Unit
  /-- `self.core.fetch_remote_versions_from_mise()`. -/
  miseShortcut : Except Err (Option (List Str))
  /-- Output of `python-build --definitions` (timeout/read failure as
  error). -/
  defsOutput : Except Err Str
  /-- `HTTP_FETCH.get_text("http://mise-versions.jdx.dev/python-precompiled")`. -/
  precompiledFeed : Except Err Str
  /-- `HTTP.download_file`. -/
  downloadResult : Except Err Unit
  /-- `file::untar`. -/
  untarResult : Except Err Unit
  /-- `file::remove_all(&install)`. -/
  removeResult : Except Err Unit
  /-- `file::rename`. -/
  renameResult : Except Err Unit
  /-- `file::make_symlink`. -/
  symlinkResult : Except Err Unit
  /-- python-build `cmd.execute()`. -/
  buildResult : Except Err Unit
  /-- `test_python` interpreter run. -/
  smokeResult : Except Err Unit
  /-- `&*env::MISE_PYTHON_PATCH_URL`. -/
  patchUrl : Option Str
  /-- `HTTP.get_text(patch_url)`. -/
  patchUrlText : Except Err Str
  /-- `&*env::MISE_PYTHON_PATCHES_DIRECTORY`. -/
  patchesDir : Option Str
  /-- `patch_file.exists()`. -/
  patchFileExists : Bool
  /-- `file::read_to_string(&patch_file)`. -/
  patchFileText : Except Err Str
  /-- `env::MISE_PYTHON_DEFAULT_PACKAGES_FILE.exists()`. -/
  defaultPackagesFileExists : Bool
  /-- The pip run inside `install_default_packages`. -/
  pipResult : Except Err Unit
  /-- `file::replace_path` (placeholder/home expansion). -/
  replacePath : Str → Str
  /-- `Path::is_absolute`. -/
  isAbsolutePath : Str → Bool
  /-- `Path::exists` on the resolved virtualenv path. -/
  pathExists : Str → Bool
  /-- `python -m venv` creation run. -/
  venvCreateResult : Except Err Unit

/-- The slice of `Config` this plugin reads. -/
structure Config where
  projectRoot : Option Str

/-- The slice of the `InstallContext`/`ToolVersion` this plugin reads. -/
structure Ctx where
  version : Str
  request : TVRequest
  optsVirtualenv : Option Str

/-- `PathBuf::join` for the relative second components this code joins. -/
def pathJoin (a b : Str) : Str := a ++ '/' :: b

/-- Run a fallible external step: on failure stop with the accumulated
events, on success continue. -/
def step (es newEvents : List Event) (r : Except Err Unit)
    (k : List Event → List Event × Except Err Unit) :
    List Event × Except Err Unit :=
  match r with
  | .error e => (es ++ newEvents, .error e)
  | .ok _ => k (es ++ newEvents)

/-- `fn install_or_update_python_build`: update the clone when it exists
(update failures propagate here), otherwise create the parent directory and
clone. -/
def install_or_update_python_build (ext : Ext) :
    List Event × Except Err Unit :=
  if ext.pythonBuildExists then
    ([Event.updateRepo],
      match ext.updateResult with
      | .error e => .error e
      | .ok _ => .ok ())
  else
    ([Event.createDirAll, Event.cloneRepo],
      match ext.cloneResult with
      | .error e => .error e
      | .ok _ => .ok ())

/-- `fn fetch_precompiled_remote_versions`: the value computed (and cached
by `precompiled_cache.get_or_try_init`) from the precompiled feed. The TTL
cache memoizes this computation; within one freshness window every reader
observes the value produced by this function on the feed text observed at
population time. -/
def fetch_precompiled_remote_versions (ext : Ext) (tag : Str) :
    Except Err (List Entry) :=
  match ext.precompiledFeed with
  | .error e => .error e
  | .ok raw => .ok (fetch_precompiled_entries raw tag)

/-- `fn fetch_remote_versions`: precompiled path projects the cached entries
to unique versions; otherwise try the mise shortcut list, then fall back to
`python-build --definitions`, sorting the lines by the boolean key
`regex!(r"^\d+").is_match`. -/
def fetch_remote_versions (s : Settings) (tag : Str) (ext : Ext) :
    List Event × Except Err (List Str) :=
  if should_install_precompiled s then
    match fetch_precompiled_remote_versions ext tag with
    | .error e => ([], .error e)
    | .ok entries =>
      ([], .ok (uniqueKeepFirst (entries.map (fun e => e.1))))
  else
    let after : List Event → List Event × Except Err (List Str) :=
      fun es =>
        match install_or_update_python_build ext with
        | (es2, .error e) => (es ++ es2, .error e)
        | (es2, .ok _) =>
          match ext.defsOutput with
          | .error e => (es ++ es2, .error e)
          | .ok output =>
            (es ++ es2,
              .ok (sorted_by_cached_key startsDigit (splitNl output)))
    match ext.miseShortcut with
    | .ok (some versions) => ([], .ok versions)
    | .ok none => after []
    | .error _ => after [Event.warnShortcutFailed]

/-- The selection expression of `install_precompiled`:
`.iter().rev().find(|(v, _, _)| &ctx.tv.version == v)`. -/
def select_precompiled (entries : List Entry) (version : Str) :
    Option Entry :=
  entries.reverse.find? (fun e => version = e.1)

/-- `fn install_precompiled`: warn three times, select the artifact, then
download, extract, swap into place, symlink and smoke-test. -/
def install_precompiled (ctx : Ctx) (tag : Str) (ext : Ext) :
    List Event × Except Err Unit :=
  let ws := [Event.warnPrecompiledExperimental,
             Event.warnPrecompiledExperimental,
             Event.warnPrecompiledExperimental]
  match fetch_precompiled_remote_versions ext tag with
  | .error e => (ws, .error e)
  | .ok entries =>
    match select_precompiled entries ctx.version with
    | none => (ws, .error (.noPrecompiledFound ctx.version))
    | some (_, tg, filename) =>
      let url :=
        str "https://github.com/indygreg/python-build-standalone/releases/download/"
          ++ tg ++ '/' :: filename
      step ws [Event.msgDownloading url, Event.download url]
          ext.downloadResult fun es =>
      step es [Event.msgInstalling, Event.untar] ext.untarResult fun es =>
      step es [Event.removeInstallPath] ext.removeResult fun es =>
      step es [Event.renameIntoInstall] ext.renameResult fun es =>
      step es [Event.makeSymlink] ext.symlinkResult fun es =>
      step es [Event.smokeTest] ext.smokeResult fun es =>
      (es, .ok ())

/-- The path-resolution prefix of `get_virtualenv`: expand placeholders
(`file::replace_path`), then anchor a relative path at the project root when
one exists. -/
def resolveVenvPath (config : Config) (ext : Ext) (v0 : Str) : Str :=
  let v1 := ext.replacePath v0
  if !ext.isAbsolutePath v1 then
    match config.projectRoot with
    | some root => pathJoin root v1
    | none => v1
  else v1

/-- `fn get_virtualenv`: only engages when the option map has a
`virtualenv` entry; expands placeholders, anchors relative paths at the
project root, then either uses the existing environment, creates one when
auto-creation is on (creation failure propagates), or warns and returns no
environment. -/
def get_virtualenv (s : Settings) (config : Config) (ctx : Ctx)
    (ext : Ext) : List Event × Except Err (Option Str) :=
  match ctx.optsVirtualenv with
  | none => ([], .ok none)
  | some v0 =>
    let warnExp :=
      if !s.experimental then [Event.warnExperimentalVenv] else []
    let v2 := resolveVenvPath config ext v0
    if !ext.pathExists v2 then
      if s.python_venv_auto_create then
        (warnExp ++ [Event.venvCreate v2],
          match ext.venvCreateResult with
          | .error e => .error e
          | .ok _ => .ok (some v2))
      else
        (warnExp ++ [Event.warnNoVenvGuidance v2], .ok none)
    else (warnExp, .ok (some v2))

/-- `fn install_default_packages`: a no-op unless the default-packages file
exists, otherwise a pip run whose result is returned. -/
def install_default_packages (ext : Ext) : List Event × Except Err Unit :=
  if !ext.defaultPackagesFileExists then ([], .ok ())
  else ([Event.installDefaultPackages],
    match ext.pipResult with
    | .error e => .error e
    | .ok _ => .ok ())

/-- `fn install_version_impl`: dispatch on the strategy; on the source-build
path ensure python-build, reject `Ref` requests, assemble the build command
(verbose flag, patch from URL, patch from the patches directory), run it,
smoke-test, then resolve the virtualenv (failure downgraded to a warning)
and install default packages (failure propagated by `?`). -/
def install_version_impl (s : Settings) (config : Config) (ctx : Ctx)
    (tag : Str) (ext : Ext) : List Event × Except Err Unit :=
  if should_install_precompiled s then install_precompiled ctx tag ext
  else
    match install_or_update_python_build ext with
    | (es, .error e) => (es, .error e)
    | (es, .ok _) =>
      match ctx.request with
      | .ref _ => (es, .error .refNotSupported)
      | _ =>
        let es := es ++ [Event.msgRunningBuild]
        let urlStep : List Event × Except Err (Option Str) :=
          match ext.patchUrl with
          | none => ([], .ok none)
          | some u =>
            ([Event.msgPatchUrl u],
              match ext.patchUrlText with
              | .error e => .error e
              | .ok t => .ok (some t))
        match urlStep with
        | (es2, .error e) => (es ++ es2, .error e)
        | (es2, .ok patch0) =>
          let es := es ++ es2
          let dirStep : List Event × Except Err (Option Str) :=
            match ext.patchesDir with
            | none => ([], .ok patch0)
            | some d =>
              let patchFile := pathJoin d (ctx.version ++ str ".patch")
              if ext.patchFileExists then
                ([Event.msgPatchFile patchFile],
                  match ext.patchFileText with
                  | .error e => .error e
                  | .ok t => .ok (some t))
              else
                ([Event.warnPatchNotFound patchFile], .ok patch0)
          match dirStep with
          | (es3, .error e) => (es ++ es3, .error e)
          | (es3, .ok patch) =>
            let es := es ++ es3
            step es [Event.runBuild ctx.version patch s.verbose]
                ext.buildResult fun es =>
            step es [Event.smokeTest] ext.smokeResult fun es =>
            let es :=
              match get_virtualenv s config ctx ext with
              | (ves, .error _) => es ++ ves ++ [Event.warnVirtualenvFailed]
              | (ves, .ok _) => es ++ ves
            match install_default_packages ext with
            | (des, .error e) => (es ++ des, .error e)
            | (des, .ok _) => (es ++ des, .ok ())

/-- `fn exec_env`: resolve the virtualenv (failure downgraded to a
warning); expose `VIRTUAL_ENV` and `MISE_ADD_PATH` when one resolves,
otherwise an empty mapping. -/
def exec_env (s : Settings) (config : Config) (ctx : Ctx) (ext : Ext) :
    List Event × List (Str × Str) :=
  match get_virtualenv s config ctx ext with
  | (es, .error _) => (es ++ [Event.warnVirtualenvFailed], [])
  | (es, .ok none) => (es, [])
  | (es, .ok (some virtualenv)) =>
    (es, [(str "VIRTUAL_ENV", virtualenv),
          (str "MISE_ADD_PATH", pathJoin virtualenv (str "bin"))])

/-! ## Helper lemmas -/

theorem insertByKey_key_false {key : α → Bool} {a : α} (h : key a = false) :
    ∀ l, insertByKey key a l = a :: l
  | [] => rfl
  | b :: _ => by simp [insertByKey, h]

theorem insertByKey_key_true {key : α → Bool} {x : α} (hx : key x = true) :
    ∀ {A B : List α}, (∀ a ∈ A, key a = false) → (∀ b ∈ B, key b = true) →
      insertByKey key x (A ++ B) = A ++ x :: B := by
  intro A
  induction A with
  | nil =>
    intro B _ hB
    cases B with
    | nil => rfl
    | cons b bs => simp [insertByKey, hx, hB b (by simp)]
  | cons a as ih =>
    intro B hA hB
    have ha : key a = false := hA a (by simp)
    have hstep : insertByKey key x ((a :: as) ++ B) =
        a :: insertByKey key x (as ++ B) := by
      simp [insertByKey, hx, ha]
    rw [hstep, ih (fun a' h' => hA a' (by simp [h'])) hB, List.cons_append]

/-- A stable sort at a boolean key is exactly the stable partition: all
`false`-key elements first, then all `true`-key elements, each group in
original order. -/
theorem sorted_by_cached_key_partition (key : α → Bool) :
    ∀ l : List α, sorted_by_cached_key key l =
      l.filter (fun a => !key a) ++ l.filter (fun a => key a) := by
  intro l
  induction l with
  | nil => rfl
  | cons x xs ih =>
    by_cases hx : key x = true
    · rw [sorted_by_cached_key, ih,
        insertByKey_key_true hx
          (fun a ha => by simpa using List.of_mem_filter ha)
          (fun b hb => List.of_mem_filter hb)]
      rw [List.filter_cons_of_neg (by simp [hx]),
        List.filter_cons_of_pos (by simp [hx])]
    · have hx' : key x = false := by simpa using hx
      rw [sorted_by_cached_key, ih, insertByKey_key_false hx']
      rw [List.filter_cons_of_pos (by simp [hx']),
        List.filter_cons_of_neg (by simp [hx'])]
      simp

theorem mem_uniqueAux {x : Str} :
    ∀ {l seen}, x ∈ uniqueAux seen l ↔ (x ∈ l ∧ x ∉ seen) := by
  intro l
  induction l with
  | nil => intro seen; simp [uniqueAux]
  | cons y ys ih =>
    intro seen
    by_cases hy : y ∈ seen
    · rw [uniqueAux, if_pos hy, ih]
      constructor
      · rintro ⟨h1, h2⟩; exact ⟨by simp [h1], h2⟩
      · rintro ⟨h1, h2⟩
        rcases List.mem_cons.mp h1 with h1 | h1
        · subst h1; exact absurd hy h2
        · exact ⟨h1, h2⟩
    · rw [uniqueAux, if_neg hy]
      constructor
      · intro h
        rcases List.mem_cons.mp h with h | h
        · subst h; exact ⟨by simp, hy⟩
        · have := ih.mp h
          exact ⟨by simp [this.1], fun hc => this.2 (by simp [hc])⟩
      · rintro ⟨h1, h2⟩
        rcases List.mem_cons.mp h1 with h1 | h1
        · subst h1; simp
        · by_cases hxy : x = y
          · subst hxy; simp
          · exact List.mem_cons.mpr (Or.inr (ih.mpr ⟨h1, by simp [hxy, h2]⟩))

theorem uniqueAux_nodup : ∀ (l seen : List Str), (uniqueAux seen l).Nodup := by
  intro l
  induction l with
  | nil => intro seen; simp [uniqueAux]
  | cons y ys ih =>
    intro seen
    by_cases hy : y ∈ seen
    · rw [uniqueAux, if_pos hy]; exact ih seen
    · rw [uniqueAux, if_neg hy]
      refine List.nodup_cons.mpr ⟨?_, ih _⟩
      intro hmem
      exact (mem_uniqueAux.mp hmem).2 (by simp)

theorem uniqueAux_sublist :
    ∀ (l seen : List Str), List.Sublist (uniqueAux seen l) l := by
  intro l
  induction l with
  | nil => intro seen; simp [uniqueAux]
  | cons y ys ih =>
    intro seen
    by_cases hy : y ∈ seen
    · rw [uniqueAux, if_pos hy]; exact (ih seen).cons y
    · rw [uniqueAux, if_neg hy]; exact (ih (y :: seen)).cons₂ y

/-- The claim's own description of the projection, spelled as the canonical
first-occurrence fold: walk the list and append each element not yet
present. (Spec-side definition for the refinement comparison.) -/
def dedupFirstSpec (l : List Str) : List Str :=
  l.foldl (fun acc x => if x ∈ acc then acc else acc ++ [x]) []

theorem uniqueAux_foldl :
    ∀ (l seen acc : List Str), (∀ x : Str, x ∈ seen ↔ x ∈ acc) →
      acc ++ uniqueAux seen l =
        l.foldl (fun acc x => if x ∈ acc then acc else acc ++ [x]) acc := by
  intro l
  induction l with
  | nil => intro seen acc _; simp [uniqueAux]
  | cons y ys ih =>
    intro seen acc h
    by_cases hy : y ∈ seen
    · have hacc : y ∈ acc := (h y).mp hy
      rw [uniqueAux, if_pos hy, List.foldl_cons, if_pos hacc]
      exact ih seen acc h
    · have hacc : y ∉ acc := fun hc => hy ((h y).mpr hc)
      rw [uniqueAux, if_neg hy, List.foldl_cons, if_neg hacc,
        ← ih (y :: seen) (acc ++ [y]) (by intro x; simp [h x, or_comm])]
      simp

theorem uniqueKeepFirst_eq_dedupFirstSpec (l : List Str) :
    uniqueKeepFirst l = dedupFirstSpec l := by
  simpa using uniqueAux_foldl l [] [] (by simp)

/-- `rev().find(p)` on the catalog is the last element of the matching
sublist, in catalog order. -/
theorem reverse_find?_eq_getLast?_filter (p : α → Bool) :
    ∀ l : List α, l.reverse.find? p = (l.filter p).getLast? := by
  intro l
  induction l with
  | nil => rfl
  | cons x xs ih =>
    rw [List.reverse_cons, List.find?_append, ih]
    by_cases hx : p x
    · rw [List.filter_cons_of_pos hx]
      cases hfx : xs.filter p with
      | nil => simp [List.find?, hx]
      | cons a as =>
        rw [List.getLast?_cons_cons]
        cases hg : (a :: as).getLast? with
        | none => simp [List.getLast?_eq_none_iff] at hg
        | some b => simp [hg]
    · rw [List.filter_cons_of_neg hx]
      cases hg : (xs.filter p).getLast? <;>
        simp [List.find?, hx, hg]

theorem dropPre_eq : ∀ {p s r : Str}, dropPre p s = some r → s = p ++ r := by
  intro p
  induction p with
  | nil => intro s r h; simp [dropPre] at h; simp [h]
  | cons a ps ih =>
    intro s r h
    cases s with
    | nil => simp [dropPre] at h
    | cons b ss =>
      rw [dropPre] at h
      split at h
      · next hab => rw [List.cons_append, ← hab, ih h]
      · exact absurd h (by simp)

theorem takeDigits_split :
    ∀ s : Str, s = (takeDigits s).1 ++ (takeDigits s).2 := by
  intro s
  induction s with
  | nil => rfl
  | cons c cs ih =>
    by_cases hc : c.isDigit
    · simp only [takeDigits, hc, if_pos]
      rw [List.cons_append, ← ih]
    · simp [takeDigits, hc]

theorem takeDigits_digits :
    ∀ s : Str, ∀ c ∈ (takeDigits s).1, c.isDigit = true := by
  intro s
  induction s with
  | nil => simp [takeDigits]
  | cons c cs ih =>
    by_cases hc : c.isDigit
    · simp only [takeDigits, hc, if_pos]
      intro d hd
      rcases List.mem_cons.mp hd with h | h
      · subst h; exact hc
      · exact ih d h
    · simp [takeDigits, hc]

/-- Structure of a successful regex match: the captures are nonempty digit
runs in the `X.Y.Z` / `N` shapes, the line extends the matched text by the
(possibly empty) tail the greedy `.*` scanned, and `caps[0]` is that matched
text. -/
theorem matchCpython_eq_some {line v t c0 : Str}
    (h : matchCpython line = some (v, t, c0)) :
    ∃ x y z rest,
      v = x ++ '.' :: y ++ '.' :: z ∧
      x ≠ [] ∧ y ≠ [] ∧ z ≠ [] ∧
      (∀ c ∈ x, c.isDigit = true) ∧ (∀ c ∈ y, c.isDigit = true) ∧
      (∀ c ∈ z, c.isDigit = true) ∧
      t ≠ [] ∧ (∀ c ∈ t, c.isDigit = true) ∧
      line = str "cpython-" ++ v ++ '+' :: t ++ rest ∧
      c0 = str "cpython-" ++ v ++ '+' :: t ++
        rest.takeWhile (fun c => c ≠ '\n') := by
  unfold matchCpython at h
  repeat' split at h
  all_goals cases h
  rename_i j1 r0 hdrop hxne j2 r2 heqx hyne j3 r4 heqy hzne j4 r6 heqz hnne
  refine ⟨(takeDigits r0).1, (takeDigits r2).1, (takeDigits r4).1,
    (takeDigits r6).2, rfl, hxne, hyne, hzne,
    takeDigits_digits r0, takeDigits_digits r2, takeDigits_digits r4,
    hnne, takeDigits_digits r6, ?_, rfl⟩
  have hline : line = str "cpython-" ++ r0 := dropPre_eq hdrop
  rw [takeDigits_split r0, heqx] at hline
  rw [takeDigits_split r2, heqy] at hline
  rw [takeDigits_split r4, heqz] at hline
  rw [takeDigits_split r6] at hline
  rw [hline]
  simp [List.append_assoc]

theorem splitNl_ne_nil : ∀ s : Str, splitNl s ≠ [] := by
  intro s
  cases s with
  | nil => simp [splitNl]
  | cons c cs =>
    rw [splitNl]
    by_cases hc : c = '\n'
    · simp [hc]
    · rw [if_neg hc]
      cases hsp : splitNl cs <;> simp

theorem splitNl_no_nl :
    ∀ (s piece : Str), piece ∈ splitNl s → '\n' ∉ piece := by
  intro s
  induction s with
  | nil => intro piece h; simp [splitNl] at h; simp [h]
  | cons c cs ih =>
    intro piece h
    rw [splitNl] at h
    by_cases hc : c = '\n'
    · rw [if_pos hc] at h
      rcases List.mem_cons.mp h with h | h
      · simp [h]
      · exact ih piece h
    · rw [if_neg hc] at h
      cases hsp : splitNl cs with
      | nil => exact absurd hsp (splitNl_ne_nil cs)
      | cons p ps =>
        rw [hsp] at h
        rcases List.mem_cons.mp h with h | h
        · subst h
          intro hmem
          rcases List.mem_cons.mp hmem with h' | h'
          · exact hc h'.symm
          · exact ih p (by rw [hsp]; exact List.mem_cons_self p ps) h'
        · exact ih piece (by rw [hsp]; exact List.mem_cons_of_mem p h)

theorem stripCr_no_nl {r : Str} (hr : '\n' ∉ r) : '\n' ∉ stripCr r := by
  rw [stripCr]
  split
  · exact fun hm => hr ((List.dropLast_prefix r).subset hm)
  · exact hr

theorem mem_dropLastEmpty {l : List Str} {q : Str}
    (h : q ∈ dropLastEmpty l) : q ∈ l := by
  rw [dropLastEmpty] at h
  split at h
  · exact (List.dropLast_prefix l).subset h
  · exact h

/-- Lines produced by `lines()` contain no newline character. -/
theorem linesOf_no_nl {s piece : Str} (h : piece ∈ linesOf s) :
    '\n' ∉ piece := by
  rw [linesOf] at h
  rcases List.mem_map.mp h with ⟨q, hq, rfl⟩
  exact stripCr_no_nl (splitNl_no_nl s q (mem_dropLastEmpty hq))

theorem takeWhile_ne_nl_eq_self {r : Str} (hr : '\n' ∉ r) :
    r.takeWhile (fun c => c ≠ '\n') = r :=
  List.takeWhile_eq_self_iff.mpr
    (fun x hx => decide_eq_true (fun hc => hr (hc ▸ hx)))

/-- Every cached entry comes from a platform-filtered feed line, the entry's
filename is that whole line, and the line re-parses to the entry. -/
theorem mem_fetch_precompiled_entries {raw tag : Str} {e : Entry}
    (h : e ∈ fetch_precompiled_entries raw tag) :
    e.2.2 ∈ linesOf raw ∧ hasSub e.2.2 tag = true ∧
      matchCpython e.2.2 = some e := by
  obtain ⟨v, tg, fn⟩ := e
  rw [fetch_precompiled_entries] at h
  rcases List.mem_filterMap.mp h with ⟨line, hline, hm⟩
  have hfil := List.mem_filter.mp hline
  obtain ⟨x, y, z, rest, hv, _, _, _, _, _, _, _, _, hlineEq, hc0⟩ :=
    matchCpython_eq_some hm
  have hnl : '\n' ∉ line := linesOf_no_nl hfil.1
  have hrest : '\n' ∉ rest := by
    intro hmem
    exact hnl (by rw [hlineEq]; simp [hmem])
  have hfn : fn = line := by
    rw [hc0, takeWhile_ne_nl_eq_self hrest, ← hlineEq]
  rw [hfn] at hm
  rw [show ((v, tg, fn) : Entry).2.2 = fn from rfl, hfn]
  exact ⟨hfil.1, hfil.2, hm⟩

/-- `fn list_remote_versions`: `remote_version_cache.get_or_try_init`
memoizes the first successful computation; the value delivered is that of
`fetch_remote_versions` on the world observed at that computation. -/
def list_remote_versions (s : Settings) (tag : Str) (ext : Ext) :
    List Event × Except Err (List Str) :=
  fetch_remote_versions s tag ext

/-- A fully-successful external world; witnesses instantiate it with the
fields their scenario needs. -/
def extBase : Ext where
  pythonBuildExists := true
  cloneResult := .ok ()
  updateResult := .ok ()
  miseShortcut := .ok none
  defsOutput := .ok (str "")
  precompiledFeed := .ok (str "")
  downloadResult := .ok ()
  untarResult := .ok ()
  removeResult := .ok ()
  renameResult := .ok ()
  symlinkResult := .ok ()
  buildResult := .ok ()
  smokeResult := .ok ()
  patchUrl := none
  patchUrlText := .ok (str "")
  patchesDir := none
  patchFileExists := false
  patchFileText := .ok (str "")
  defaultPackagesFileExists := false
  pipResult := .ok ()
  replacePath := fun p => p
  isAbsolutePath := fun _ => true
  pathExists := fun _ => true
  venvCreateResult := .ok ()

/-! ## Claims -/

/-- **C4**: for every settings state, the Precompiled strategy is selected
if and only if the force-compile-all flag is false, the tool compile flag
is false and the experimental flag is true; every other combination selects
SourceBuild. -/
theorem C4_strategy_choice (s : Settings) :
    (selectStrategy s = .Precompiled ↔
      (s.all_compile = false ∧ s.python_compile = false ∧
        s.experimental = true)) ∧
    (selectStrategy s = .SourceBuild ↔
      ¬(s.all_compile = false ∧ s.python_compile = false ∧
        s.experimental = true)) := by
  obtain ⟨ac, pc, ex, vc, vb⟩ := s
  cases ac <;> cases pc <;> cases ex <;>
    simp [selectStrategy, should_install_precompiled]

/-- **C7**: with a `virtualenv` option set, a resolved path that does not
exist, and auto-creation disabled, virtualenv resolution emits the guidance
warning and returns no environment (a successful empty result), never
invoking environment creation and never returning an error. -/
theorem C7_venv_no_autocreate (s : Settings) (config : Config) (ctx : Ctx)
    (ext : Ext) (v0 : Str)
    (hopt : ctx.optsVirtualenv = some v0)
    (hauto : s.python_venv_auto_create = false)
    (hex : ext.pathExists (resolveVenvPath config ext v0) = false) :
    (get_virtualenv s config ctx ext).2 = .ok none ∧
    Event.warnNoVenvGuidance (resolveVenvPath config ext v0) ∈
      (get_virtualenv s config ctx ext).1 ∧
    ∀ p, Event.venvCreate p ∉ (get_virtualenv s config ctx ext).1 := by
  by_cases hexp : s.experimental <;>
    simp [get_virtualenv, hopt, hex, hauto, hexp]

/-- Witness for C7 at a concrete settings/context/world. -/
theorem C7_venv_no_autocreate_witness :
    (get_virtualenv
      (Settings.mk false false true false false)
      (Config.mk none)
      (Ctx.mk (str "3.12.0") (.version (str "3.12.0")) (some (str "venv")))
      { extBase with pathExists := fun _ => false }).2 = .ok none :=
  (C7_venv_no_autocreate
    (Settings.mk false false true false false)
    (Config.mk none)
    (Ctx.mk (str "3.12.0") (.version (str "3.12.0")) (some (str "venv")))
    { extBase with pathExists := fun _ => false }
    (str "venv") rfl rfl rfl).1

/-- **C9**: when a virtual environment resolves, `exec_env` is exactly the
two-entry mapping `VIRTUAL_ENV` (the environment path) and `MISE_ADD_PATH`
(its `bin` directory); when none resolves, it is empty. -/
theorem C9_exec_env (s : Settings) (config : Config) (ctx : Ctx)
    (ext : Ext) :
    (∀ venv, (get_virtualenv s config ctx ext).2 = .ok (some venv) →
      (exec_env s config ctx ext).2 =
        [(str "VIRTUAL_ENV", venv),
         (str "MISE_ADD_PATH", pathJoin venv (str "bin"))]) ∧
    ((get_virtualenv s config ctx ext).2 = .ok none →
      (exec_env s config ctx ext).2 = []) := by
  constructor
  · intro venv hv
    rcases hgv : get_virtualenv s config ctx ext with ⟨es, r⟩
    rw [hgv] at hv
    have hr : r = .ok (some venv) := hv
    subst hr
    simp [exec_env, hgv]
  · intro hv
    rcases hgv : get_virtualenv s config ctx ext with ⟨es, r⟩
    rw [hgv] at hv
    have hr : r = .ok none := hv
    subst hr
    simp [exec_env, hgv]

/-- Witness for C9 with a resolving virtual environment. -/
theorem C9_exec_env_witness :
    (exec_env (Settings.mk false false true false false) (Config.mk none)
      (Ctx.mk (str "3.12.0") (.version (str "3.12.0")) (some (str "venv")))
      extBase).2 =
      [(str "VIRTUAL_ENV", str "venv"),
       (str "MISE_ADD_PATH", str "venv/bin")] :=
  (C9_exec_env (Settings.mk false false true false false) (Config.mk none)
    (Ctx.mk (str "3.12.0") (.version (str "3.12.0")) (some (str "venv")))
    extBase).1 (str "venv") rfl

/-- The ordering property asserted by C1: every digit-leading string
appears before every non-digit-leading string (no non-digit-leading string
is followed by a digit-leading one). -/
def digitLeadFirst (l : List Str) : Prop :=
  l.Pairwise (fun a b => startsDigit b = true → startsDigit a = true)

/-- **C1** counterexample: on the definitions fall-through,
`sorted_by_cached_key` with key `is_match` sorts `false` before `true`, so
the digit-leading line `"3.1"` comes *after* `"anaconda"`, violating the
claimed order. -/
theorem C1_counterexample :
    (list_remote_versions
      (Settings.mk false false false false false)
      (platformTag .x86_64 .linuxGnu)
      { extBase with defsOutput := .ok (str "3.1\nanaconda") }).2 =
      .ok [str "anaconda", str "3.1"] ∧
    ¬ digitLeadFirst [str "anaconda", str "3.1"] := by
  refine ⟨rfl, fun h => ?_⟩
  have h1 := (List.pairwise_cons.mp h).1 (str "3.1") (by simp)
  have h2 : startsDigit (str "anaconda") = true := h1 (by decide)
  exact absurd h2 (by decide)

/-- **C1** (amended): the definitions fall-through of `listRemoteVersions`
returns a stable partition of the line-by-line output in which every string
*not* beginning with a digit appears before every string beginning with a
digit, preserving relative order within each group (the boolean sort key is
ascending, with `false` before `true`). -/
theorem C1_defs_listing_stable_partition (s : Settings) (tag : Str)
    (ext : Ext) (output : Str)
    (hpre : should_install_precompiled s = false)
    (hshort : ext.miseShortcut = .ok none ∨
      ∃ e, ext.miseShortcut = .error e)
    (hiu : (install_or_update_python_build ext).2 = .ok ())
    (hdefs : ext.defsOutput = .ok output) :
    (list_remote_versions s tag ext).2 =
      .ok ((splitNl output).filter (fun v => !startsDigit v) ++
           (splitNl output).filter (fun v => startsDigit v)) := by
  rcases hiu' : install_or_update_python_build ext with ⟨es2, r⟩
  rw [hiu'] at hiu
  have hr : r = .ok () := hiu
  subst hr
  have hsorted := sorted_by_cached_key_partition startsDigit (splitNl output)
  rcases hshort with h | ⟨e, h⟩ <;>
    simp [list_remote_versions, fetch_remote_versions, hpre, h, hiu',
      hdefs, hsorted]

/-- Witness for C1 (amended) at a concrete definitions listing. -/
theorem C1_defs_listing_stable_partition_witness :
    (list_remote_versions
      (Settings.mk true false true false false)
      (platformTag .x86_64 .linuxGnu)
      { extBase with
          defsOutput := .ok (str "2.7\nanaconda\n3.1\npypy") }).2 =
      .ok [str "anaconda", str "pypy", str "2.7", str "3.1"] := by
  have h := C1_defs_listing_stable_partition
    (Settings.mk true false true false false)
    (platformTag .x86_64 .linuxGnu)
    { extBase with defsOutput := .ok (str "2.7\nanaconda\n3.1\npypy") }
    (str "2.7\nanaconda\n3.1\npypy")
    rfl (Or.inl rfl) rfl rfl
  simpa using h

/-- **C6** counterexample: the mise-shortcut path of `listRemoteVersions`
returns the host-provided list verbatim, so duplicates in it pass through —
no deduplication happens on the non-precompiled paths. -/
theorem C6_counterexample :
    (list_remote_versions (Settings.mk false false false false false)
      (platformTag .x86_64 .linuxGnu)
      { extBase with
          miseShortcut := .ok (some [str "3.1", str "3.1"]) }).2 =
      .ok [str "3.1", str "3.1"] ∧
    ¬ ([str "3.1", str "3.1"] : List Str).Nodup :=
  ⟨rfl, by decide⟩

/-- **C6** (amended): on the precompiled path the projection to versions is
deduplicated — it equals the canonical first-occurrence fold, is duplicate
free, and is an order-preserving subsequence of the projected versions with
the same members; the non-precompiled paths return their sequences
(shortcut list, sorted definition lines) without deduplication. -/
theorem C6_precompiled_unique (s : Settings) (tag : Str) (ext : Ext)
    (raw : Str)
    (hpre : should_install_precompiled s = true)
    (hfeed : ext.precompiledFeed = .ok raw) :
    (list_remote_versions s tag ext).2 =
      .ok (uniqueKeepFirst
        ((fetch_precompiled_entries raw tag).map (fun e => e.1))) ∧
    ∀ l : List Str,
      uniqueKeepFirst l = dedupFirstSpec l ∧
      (uniqueKeepFirst l).Nodup ∧
      List.Sublist (uniqueKeepFirst l) l ∧
      (∀ x, x ∈ uniqueKeepFirst l ↔ x ∈ l) := by
  constructor
  · simp [list_remote_versions, fetch_remote_versions, hpre,
      fetch_precompiled_remote_versions, hfeed]
  · intro l
    refine ⟨uniqueKeepFirst_eq_dedupFirstSpec l, uniqueAux_nodup l [],
      uniqueAux_sublist l [], fun x => ?_⟩
    rw [uniqueKeepFirst, mem_uniqueAux]
    simp

/-- Witness for C6 (amended): a feed with two releases of the same version
lists that version once. -/
theorem C6_precompiled_unique_witness :
    (list_remote_versions (Settings.mk false false true false false)
      (platformTag .x86_64 .linuxGnu)
      { extBase with
          precompiledFeed := .ok (str
            "cpython-3.12.0+20231002-x86_64_v3-unknown-linux-gnu-install_only.tar.gz\ncpython-3.12.0+20231003-x86_64_v3-unknown-linux-gnu-install_only.tar.gz\n") }).2 =
      .ok [str "3.12.0"] := by
  have h := (C6_precompiled_unique (Settings.mk false false true false false)
    (platformTag .x86_64 .linuxGnu)
    { extBase with
        precompiledFeed := .ok (str
          "cpython-3.12.0+20231002-x86_64_v3-unknown-linux-gnu-install_only.tar.gz\ncpython-3.12.0+20231003-x86_64_v3-unknown-linux-gnu-install_only.tar.gz\n") }
    (str
      "cpython-3.12.0+20231002-x86_64_v3-unknown-linux-gnu-install_only.tar.gz\ncpython-3.12.0+20231003-x86_64_v3-unknown-linux-gnu-install_only.tar.gz\n")
    rfl rfl).1
  simpa using h

/-- **C5**: precompiled selection operates on a catalog every entry of
which carries the current platform tag in its filename; among the entries
whose version equals the requested one it picks the last match in catalog
order; and when none matches, the install fails with an error naming the
requested version. -/
theorem C5_precompiled_selection (ctx : Ctx) (a : TargetArch)
    (o : TargetOs) (ext : Ext) (raw : Str)
    (hfeed : ext.precompiledFeed = .ok raw) :
    (∀ e ∈ fetch_precompiled_entries raw (platformTag a o),
      hasSub e.2.2 (platformTag a o) = true) ∧
    select_precompiled (fetch_precompiled_entries raw (platformTag a o))
        ctx.version =
      ((fetch_precompiled_entries raw (platformTag a o)).filter
        (fun e => ctx.version = e.1)).getLast? ∧
    ((fetch_precompiled_entries raw (platformTag a o)).filter
        (fun e => ctx.version = e.1) = [] →
      (install_precompiled ctx (platformTag a o) ext).2 =
        .error (.noPrecompiledFound ctx.version)) := by
  have hsel : select_precompiled
      (fetch_precompiled_entries raw (platformTag a o)) ctx.version =
      ((fetch_precompiled_entries raw (platformTag a o)).filter
        (fun e => ctx.version = e.1)).getLast? :=
    reverse_find?_eq_getLast?_filter _ _
  refine ⟨fun e he => (mem_fetch_precompiled_entries he).2.1, hsel, ?_⟩
  intro hempty
  have hnone : select_precompiled
      (fetch_precompiled_entries raw (platformTag a o)) ctx.version =
      none := by rw [hsel, hempty]; rfl
  simp [install_precompiled, fetch_precompiled_remote_versions, hfeed,
    hnone]

/-- Witness for C5: an empty catalog yields the fatal error naming the
requested version. -/
theorem C5_precompiled_selection_witness :
    (install_precompiled
      (Ctx.mk (str "9.9.9") (.version (str "9.9.9")) none)
      (platformTag .x86_64 .linuxGnu)
      { extBase with precompiledFeed := .ok (str
          "cpython-3.12.0+20231002-x86_64_v3-unknown-linux-gnu-install_only.tar.gz\n") }).2 =
      .error (.noPrecompiledFound (str "9.9.9")) :=
  (C5_precompiled_selection
    (Ctx.mk (str "9.9.9") (.version (str "9.9.9")) none)
    .x86_64 .linuxGnu
    { extBase with precompiledFeed := .ok (str
        "cpython-3.12.0+20231002-x86_64_v3-unknown-linux-gnu-install_only.tar.gz\n") }
    (str
      "cpython-3.12.0+20231002-x86_64_v3-unknown-linux-gnu-install_only.tar.gz\n")
    rfl).2.2 (by decide)

/-- **C10**: every cached precompiled entry was parsed from a feed line
that contains the current platform's `arch-os` tag and matches
`cpython-<X.Y.Z>+<N>...`, with version `X.Y.Z` (nonempty digit runs), tag
`N` (a nonempty digit run) and filename the whole matched line — platform
filtering happens at cache-population time. -/
theorem C10_cache_invariant (raw : Str) (a : TargetArch) (o : TargetOs)
    (e : Entry)
    (hmem : e ∈ fetch_precompiled_entries raw (platformTag a o)) :
    e.2.2 ∈ linesOf raw ∧
    hasSub e.2.2 (platformTag a o) = true ∧
    matchCpython e.2.2 = some e ∧
    ∃ x y z rest,
      e.1 = x ++ '.' :: y ++ '.' :: z ∧ x ≠ [] ∧ y ≠ [] ∧ z ≠ [] ∧
      (∀ c ∈ x, c.isDigit = true) ∧ (∀ c ∈ y, c.isDigit = true) ∧
      (∀ c ∈ z, c.isDigit = true) ∧
      e.2.1 ≠ [] ∧ (∀ c ∈ e.2.1, c.isDigit = true) ∧
      e.2.2 = str "cpython-" ++ e.1 ++ '+' :: e.2.1 ++ rest := by
  obtain ⟨hline, hsub, hmatch⟩ := mem_fetch_precompiled_entries hmem
  refine ⟨hline, hsub, hmatch, ?_⟩
  obtain ⟨v, tg, fn⟩ := e
  obtain ⟨x, y, z, rest, hv, hx, hy, hz, hdx, hdy, hdz, ht, hdt,
    hlineEq, _⟩ := matchCpython_eq_some hmatch
  exact ⟨x, y, z, rest, hv, hx, hy, hz, hdx, hdy, hdz, ht, hdt,
    by rw [show ((v, tg, fn) : Entry).2.2 = fn from rfl] at hlineEq ⊢
       rw [hlineEq, hv]⟩

/-- Witness for C10 at a concrete feed line. -/
theorem C10_cache_invariant_witness :
    (str "3.12.0", str "20231002",
      str "cpython-3.12.0+20231002-x86_64_v3-unknown-linux-gnu-install_only.tar.gz").2.2 ∈
      linesOf (str
        "cpython-3.12.0+20231002-x86_64_v3-unknown-linux-gnu-install_only.tar.gz\n") :=
  (C10_cache_invariant
    (str
      "cpython-3.12.0+20231002-x86_64_v3-unknown-linux-gnu-install_only.tar.gz\n")
    .x86_64 .linuxGnu
    (str "3.12.0", str "20231002",
      str "cpython-3.12.0+20231002-x86_64_v3-unknown-linux-gnu-install_only.tar.gz")
    (by decide)).1

/-- **C2** counterexample: with the build utility absent, a `Ref` request
on the source-build path does fail with the references error, but only
after cloning the build utility — a filesystem mutation before failing. -/
theorem C2_counterexample :
    (install_version_impl (Settings.mk false false false false false)
      (Config.mk none)
      (Ctx.mk (str "master") (.ref (str "master")) none)
      (platformTag .x86_64 .linuxGnu)
      { extBase with pythonBuildExists := false }).2 =
      .error .refNotSupported ∧
    ¬ ∀ e ∈ (install_version_impl (Settings.mk false false false false false)
        (Config.mk none)
        (Ctx.mk (str "master") (.ref (str "master")) none)
        (platformTag .x86_64 .linuxGnu)
        { extBase with pythonBuildExists := false }).1,
        isFsMutation e = false := by
  refine ⟨rfl, fun h => ?_⟩
  exact absurd (h Event.cloneRepo (by decide)) (by decide)

/-- **C2** (amended): a symbolic-reference request on the source-build path
fails with the references-not-supported error before any build invocation
or install-path mutation; the only effects preceding the failure are those
of ensuring the python-build checkout (directory creation, clone or
update). -/
theorem C2_ref_rejected_after_ensure (s : Settings) (config : Config)
    (ctx : Ctx) (tag r : Str) (ext : Ext)
    (hpre : should_install_precompiled s = false)
    (href : ctx.request = .ref r)
    (hiu : (install_or_update_python_build ext).2 = .ok ()) :
    (install_version_impl s config ctx tag ext).2 =
      .error .refNotSupported ∧
    ∀ e ∈ (install_version_impl s config ctx tag ext).1,
      e = .createDirAll ∨ e = .cloneRepo ∨ e = .updateRepo := by
  rcases hiu' : install_or_update_python_build ext with ⟨es, r'⟩
  rw [hiu'] at hiu
  have hr : r' = .ok () := hiu
  subst hr
  have hform : install_version_impl s config ctx tag ext =
      (es, .error .refNotSupported) := by
    simp [install_version_impl, hpre, hiu', href]
  rw [hform]
  refine ⟨rfl, ?_⟩
  intro e he
  rw [install_or_update_python_build] at hiu'
  by_cases hex : ext.pythonBuildExists
  · rw [if_pos hex] at hiu'
    have h1 : [Event.updateRepo] = es := congrArg Prod.fst hiu'
    rw [← h1] at he
    simp at he
    simp [he]
  · rw [if_neg hex] at hiu'
    have h1 : [Event.createDirAll, Event.cloneRepo] = es :=
      congrArg Prod.fst hiu'
    rw [← h1] at he
    rcases List.mem_cons.mp he with h | h
    · simp [h]
    · simp at h
      simp [h]

/-- Witness for C2 (amended) with the build utility present. -/
theorem C2_ref_rejected_after_ensure_witness :
    (install_version_impl (Settings.mk false false false false false)
      (Config.mk none)
      (Ctx.mk (str "master") (.ref (str "master")) none)
      (platformTag .x86_64 .linuxGnu) extBase).2 =
      .error .refNotSupported :=
  (C2_ref_rejected_after_ensure (Settings.mk false false false false false)
    (Config.mk none)
    (Ctx.mk (str "master") (.ref (str "master")) none)
    (platformTag .x86_64 .linuxGnu) (str "master") extBase
    rfl rfl rfl).1

/-- **C8**: with a patches directory configured and `<version>.patch`
missing from it, the source-build install warns, passes no patch from that
directory to the build invocation, and proceeds without error from this
step (succeeding when the remaining steps succeed). -/
theorem C8_missing_patch_file (s : Settings) (config : Config) (ctx : Ctx)
    (tag d v : Str) (ext : Ext)
    (hpre : should_install_precompiled s = false)
    (hver : ctx.request = .version v)
    (hiu : (install_or_update_python_build ext).2 = .ok ())
    (hurl : ext.patchUrl = none)
    (hdir : ext.patchesDir = some d)
    (hpf : ext.patchFileExists = false)
    (hbuild : ext.buildResult = .ok ())
    (hsmoke : ext.smokeResult = .ok ())
    (hdpf : ext.defaultPackagesFileExists = false) :
    (install_version_impl s config ctx tag ext).2 = .ok () ∧
    Event.warnPatchNotFound (pathJoin d (ctx.version ++ str ".patch")) ∈
      (install_version_impl s config ctx tag ext).1 ∧
    Event.runBuild ctx.version none s.verbose ∈
      (install_version_impl s config ctx tag ext).1 := by
  rcases hiu' : install_or_update_python_build ext with ⟨es0, r0⟩
  rw [hiu'] at hiu
  have hr : r0 = .ok () := hiu
  subst hr
  rcases hgv : get_virtualenv s config ctx ext with ⟨ves, rv⟩
  cases rv with
  | error err =>
    refine ⟨?_, ?_, ?_⟩ <;>
      simp [install_version_impl, hpre, hver, hiu', hurl, hdir, hpf,
        hbuild, hsmoke, hdpf, step, hgv, install_default_packages]
  | ok w =>
    refine ⟨?_, ?_, ?_⟩ <;>
      simp [install_version_impl, hpre, hver, hiu', hurl, hdir, hpf,
        hbuild, hsmoke, hdpf, step, hgv, install_default_packages]

/-- Witness for C8 at a concrete missing patch file. -/
theorem C8_missing_patch_file_witness :
    (install_version_impl (Settings.mk false false false false false)
      (Config.mk none)
      (Ctx.mk (str "3.12.0") (.version (str "3.12.0")) none)
      (platformTag .x86_64 .linuxGnu)
      { extBase with patchesDir := some (str "patches") }).2 = .ok () :=
  (C8_missing_patch_file (Settings.mk false false false false false)
    (Config.mk none)
    (Ctx.mk (str "3.12.0") (.version (str "3.12.0")) none)
    (platformTag .x86_64 .linuxGnu) (str "patches") (str "3.12.0")
    { extBase with patchesDir := some (str "patches") }
    rfl rfl rfl rfl rfl rfl rfl rfl rfl).1

/-- Events belonging to the two post-install steps (virtual-environment
resolution and default-package bootstrap). -/
def isPostInstall : Event → Bool
  | .venvCreate _ | .warnNoVenvGuidance _ | .warnExperimentalVenv
  | .warnVirtualenvFailed | .installDefaultPackages => true
  | _ => false

/-- **C3** counterexample: on the source-build path with strategy and smoke
test succeeding, a failing default-package bootstrap makes
`installVersion` return that error — it is not downgraded to a warning. -/
theorem C3_counterexample :
    (install_version_impl (Settings.mk false false false false false)
      (Config.mk none)
      (Ctx.mk (str "3.12.0") (.version (str "3.12.0")) none)
      (platformTag .x86_64 .linuxGnu)
      { extBase with defaultPackagesFileExists := true,
                     pipResult := .error (.external 7) }).2 =
      .error (.external 7) ∧
    (Except.error (.external 7) : Except Err Unit) ≠ .ok () :=
  ⟨rfl, fun h => Except.noConfusion h⟩

/-- **C3** (amended): on the source-build path, after a successful build
and smoke test, a virtualenv-resolution failure is logged as a warning and
the install still succeeds, while a default-package failure propagates and
fails the install; on the precompiled path neither post-install step is
run. -/
theorem C3_post_install (s : Settings) (config : Config) (ctx : Ctx)
    (tag v : Str) (ext : Ext) :
    (should_install_precompiled s = false → ctx.request = .version v →
      (install_or_update_python_build ext).2 = .ok () →
      ext.patchUrl = none → ext.patchesDir = none →
      ext.buildResult = .ok () → ext.smokeResult = .ok () →
      ext.defaultPackagesFileExists = false →
      ∀ err, (get_virtualenv s config ctx ext).2 = .error err →
        (install_version_impl s config ctx tag ext).2 = .ok () ∧
        Event.warnVirtualenvFailed ∈
          (install_version_impl s config ctx tag ext).1) ∧
    (should_install_precompiled s = false → ctx.request = .version v →
      (install_or_update_python_build ext).2 = .ok () →
      ext.patchUrl = none → ext.patchesDir = none →
      ext.buildResult = .ok () → ext.smokeResult = .ok () →
      ext.defaultPackagesFileExists = true →
      ∀ err, ext.pipResult = .error err →
        (install_version_impl s config ctx tag ext).2 = .error err) ∧
    (should_install_precompiled s = true →
      ∀ e ∈ (install_version_impl s config ctx tag ext).1,
        isPostInstall e = false) := by
  refine ⟨?_, ?_, ?_⟩
  · intro hpre hver hiu hurl hdir hbuild hsmoke hdpf err hgv'
    rcases hiu' : install_or_update_python_build ext with ⟨es0, r0⟩
    rw [hiu'] at hiu
    have hr : r0 = .ok () := hiu
    subst hr
    rcases hgv : get_virtualenv s config ctx ext with ⟨ves, rv⟩
    rw [hgv] at hgv'
    have hrv : rv = .error err := hgv'
    subst hrv
    constructor <;>
      simp [install_version_impl, hpre, hver, hiu', hurl, hdir,
        hbuild, hsmoke, hdpf, step, hgv, install_default_packages]
  · intro hpre hver hiu hurl hdir hbuild hsmoke hdpf err hpip
    rcases hiu' : install_or_update_python_build ext with ⟨es0, r0⟩
    rw [hiu'] at hiu
    have hr : r0 = .ok () := hiu
    subst hr
    rcases hgv : get_virtualenv s config ctx ext with ⟨ves, rv⟩
    cases rv with
    | error e2 =>
      simp [install_version_impl, hpre, hver, hiu', hurl, hdir,
        hbuild, hsmoke, hdpf, step, hgv, install_default_packages, hpip]
    | ok w =>
      simp [install_version_impl, hpre, hver, hiu', hurl, hdir,
        hbuild, hsmoke, hdpf, step, hgv, install_default_packages, hpip]
  · intro hpre
    have hform : install_version_impl s config ctx tag ext =
        install_precompiled ctx tag ext := by
      simp [install_version_impl, hpre]
    rw [hform, install_precompiled]
    simp only [step]
    repeat' split
    all_goals
      simp [List.forall_mem_append, List.forall_mem_cons, isPostInstall]

/-- Witness for C3 (amended): a concrete failing virtualenv resolution
still yields a successful install. -/
theorem C3_post_install_witness :
    (install_version_impl (Settings.mk false false false true false)
      (Config.mk none)
      (Ctx.mk (str "3.12.0") (.version (str "3.12.0")) (some (str "venv")))
      (platformTag .x86_64 .linuxGnu)
      { extBase with pathExists := fun _ => false,
                     venvCreateResult := .error (.external 3) }).2 =
      .ok () :=
  ((C3_post_install (Settings.mk false false false true false)
    (Config.mk none)
    (Ctx.mk (str "3.12.0") (.version (str "3.12.0")) (some (str "venv")))
    (platformTag .x86_64 .linuxGnu) (str "3.12.0")
    { extBase with pathExists := fun _ => false,
                   venvCreateResult := .error (.external 3) }).1
    rfl rfl rfl rfl rfl rfl rfl rfl (.external 3) rfl).1

end MisePython
